import Mathlib

/-!
Shallow embedding of the two tile providers of the dezoomify-rs repository:
the adaptive grid-discovery engine (src/generic/mod.rs) and the declarative
YAML tile-set provider (src/custom_yaml/mod.rs), together with proofs of the
specification claims about them.

Machine integers: the engine stores grid coordinates in Rust u32 fields.  We
model them as Nat with explicit reduction modulo 2 ^ 32 at every arithmetic
operation the source performs on them (release-mode wrapping semantics), so
that overflow and underflow behaviour is represented faithfully.
-/

/-- Modulus of Rust u32 arithmetic. -/
def U32M : Nat := 4294967296

/-- Geometry primitive from the crate root (not under src in this excerpt).
Modelled from the spec: a 2D integer vector with u32 components, used for grid
and pixel coordinates. -/
structure Vec2d where
  x : Nat
  y : Nat
deriving DecidableEq

/-- Modelled from the spec: component-wise multiplication
a*b = (a.x*b.x, a.y*b.y) on u32 components (wrapping, as release-mode Rust). -/
def Vec2d.mul (a b : Vec2d) : Vec2d :=
  { x := a.x * b.x % U32M, y := a.y * b.y % U32M }

/-- Tile reference from the crate root. Modelled from the spec: an immutable
pair of a tile address and the pixel position of the tile in the canvas. -/
structure TileReference where
  url : String
  position : Vec2d
deriving DecidableEq

/-- Fetch outcome reported by the host after attempting one batch.  The fields
are those the source constructs in its test (count, successes, tile_size). -/
structure TileFetchResult where
  count : Nat
  successes : Nat
  tile_size : Option Vec2d
deriving DecidableEq

/-- Modelled from the spec: "batch success" is a host-defined predicate over
(count, successes), opaque to the engine.  The spec's testable properties and
the claims drive the engine with "success iff every tile in the batch
succeeded", which this definition adopts. -/
def TileFetchResult.is_success (r : TileFetchResult) : Bool :=
  r.successes == r.count

/-- Replace every non-overlapping occurrence of pat (scanned left to right) by
rep, on character lists.  Fuel-indexed so that it is structural and hence
kernel-reducible; fuel at least the length of the input gives the full
traversal.  This is the behaviour of Rust str::replace for the non-empty
patterns the source uses. -/
def replaceChars (pat rep : List Char) : Nat → List Char → List Char
  | 0, l => l
  | fuel + 1, l =>
    match l with
    | [] => []
    | c :: cs =>
      if pat ≠ [] && pat.isPrefixOf l then
        rep ++ replaceChars pat rep fuel (l.drop pat.length)
      else c :: replaceChars pat rep fuel cs

/-- Embedding of Rust str::replace (replace all occurrences). -/
def replaceStr (s pat rep : String) : String :=
  String.mk (replaceChars pat.data rep.data s.data.length s.data)

/-- The column placeholder token of the generic dezoomer. -/
def xToken : String := "\x7b\x7bX\x7d\x7d"

/-- The row placeholder token of the generic dezoomer. -/
def yToken : String := "\x7b\x7bY\x7d\x7d"

/-- The discovery stage of the generic engine (enum Stage in
src/generic/mod.rs). -/
inductive Stage where
  | Init : Stage
  | FirstLine (current_x : Nat) : Stage
  | NextLines (max_x : Nat) (current_y : Nat) : Stage
deriving DecidableEq

/-- The generic zoom level (struct ZoomLevel in src/generic/mod.rs). -/
structure ZoomLevel where
  url_template : String
  stage : Stage
  tile_size : Option Vec2d
deriving DecidableEq

/-- ZoomLevel::tile_url_at: substitute the decimal column for every occurrence
of the column token and the decimal row for every occurrence of the row token
in the template. -/
def ZoomLevel.tile_url_at (z : ZoomLevel) (x y : Nat) : String :=
  replaceStr (replaceStr z.url_template xToken (toString x)) yToken (toString y)

/-- ZoomLevel::tile_ref_at: the reference for grid cell (x, y); position is the
cell times the stored tile size, the zero vector standing in while no tile
size is known. -/
def ZoomLevel.tile_ref_at (z : ZoomLevel) (x y : Nat) : TileReference :=
  let tile_size := z.tile_size.getD { x := 0, y := 0 }
  let position := Vec2d.mul { x := x, y := y } tile_size
  { url := z.tile_url_at x y, position := position }

/-- ZoomLevel::next_tiles (impl TileProvider for ZoomLevel).  The Rust method
mutates self and returns the batch; we return the updated level paired with
the batch.  u32 arithmetic on the stage counters is taken modulo 2 ^ 32;
Rust's inclusive range 0..=max_x is List.range (max_x + 1). -/
def ZoomLevel.next_tiles (z : ZoomLevel) (previous : Option TileFetchResult) :
    ZoomLevel × List TileReference :=
  match previous, z.stage with
  | none, _ => (z, [z.tile_ref_at 0 0])
  | some res, Stage.Init =>
    if res.is_success then
      let z2 : ZoomLevel := { z with stage := Stage.FirstLine 1, tile_size := res.tile_size }
      (z2, [z2.tile_ref_at 1 0])
    else
      (z, [])
  | some res, Stage.FirstLine current_x =>
    if res.is_success then
      let current_x := (current_x + 1) % U32M
      let z2 : ZoomLevel := { z with stage := Stage.FirstLine current_x }
      (z2, [z2.tile_ref_at current_x 0])
    else
      let max_x := (current_x + U32M - 1) % U32M
      let z2 : ZoomLevel := { z with stage := Stage.NextLines max_x 1 }
      (z2, (List.range (max_x + 1)).map fun x => z2.tile_ref_at x 1)
  | some res, Stage.NextLines max_x current_y =>
    if res.is_success then
      let current_y := (current_y + 1) % U32M
      let z2 : ZoomLevel := { z with stage := Stage.NextLines max_x current_y }
      (z2, (List.range (max_x + 1)).map fun x => z2.tile_ref_at x current_y)
    else
      (z, [])

/-- Substring containment on character lists (Rust str::contains with a string
pattern), written as a structural Bool function. -/
def hasSubChars (pat : List Char) : List Char → Bool
  | [] => pat.isEmpty
  | c :: cs => pat.isPrefixOf (c :: cs) || hasSubChars pat cs

/-- Rust str::contains for string patterns. -/
def strContains (s pat : String) : Bool :=
  hasSubChars pat.data s.data

/-- Rust str::ends_with. -/
def strEndsWith (s suffix : String) : Bool :=
  List.isSuffixOf suffix.data s.data

/-- Errors of the dezoomer protocol.  Modelled from the spec: a gate rejection
(strategy not applicable), missing payload, and a wrapped construction
failure. -/
inductive DezoomerError where
  | NotApplicable : DezoomerError
  | NeedsData : DezoomerError
  | wrapped (msg : String) : DezoomerError
deriving DecidableEq

/-- Modelled from the spec: the dezoomer input bundles a resource identifier
and an optional fetched byte payload. -/
structure DezoomerInput where
  uri : String
  contents : Option (List Nat)
deriving DecidableEq

/-- Modelled from the spec: Dezoomer::assert raises the strategy-not-applicable
error when the gate condition fails. -/
def dezoomerAssert (b : Bool) : Except DezoomerError Unit :=
  if b then Except.ok () else Except.error DezoomerError.NotApplicable

/-- Modelled from the spec: DezoomerInput::with_contents yields the fetched
payload, or a needs-data error when none was fetched. -/
def DezoomerInput.with_contents (d : DezoomerInput) : Except DezoomerError (List Nat) :=
  match d.contents with
  | some c => Except.ok c
  | none => Except.error DezoomerError.NeedsData

/-- Modelled from the spec: single_level wraps one provider into a one-element
list of zoom levels. -/
def single_level {α : Type} (a : α) : Except DezoomerError (List α) :=
  Except.ok [a]

/-- GenericDezoomer::zoom_levels: gate on the identifier containing the column
placeholder token, then produce the one zoom level in its initial state. -/
def GenericDezoomer.zoom_levels (data : DezoomerInput) :
    Except DezoomerError (List ZoomLevel) := do
  let _ ← dezoomerAssert (strContains data.uri xToken)
  single_level { url_template := data.uri, stage := Stage.Init, tile_size := none }

deriving instance DecidableEq for Except

/-- Modelled from the spec: the external tile-set expansion of the declarative
provider (mod tile_set, not under src in this excerpt) is a black box yielding
a finite ordered sequence whose items are each either a tile reference or an
expansion error — the Result item type of the iterator that
CustomYamlTiles::next_tiles collects. -/
structure TileSet where
  items : List (Except String TileReference)
deriving DecidableEq

/-- Embedding of Rust Iterator::collect into Result of Vec: the whole list on
no error, otherwise the first error. -/
def collectResults {ε α : Type} : List (Except ε α) → Except ε (List α)
  | [] => Except.ok []
  | Except.ok a :: rest => (collectResults rest).map fun l => a :: l
  | Except.error e :: _ => Except.error e

/-- Modelled from the spec: the host-supplied baseline header set used when the
configuration omits headers (at minimum a default user agent). -/
def default_headers : List (String × String) :=
  [("User-Agent", "dezoomify-rs")]

/-- The declarative provider (struct CustomYamlTiles in src/custom_yaml/mod.rs):
a pre-expanded tile set plus a header mapping. -/
structure CustomYamlTiles where
  tile_set : TileSet
  headers : List (String × String)
deriving DecidableEq

/-- CustomYamlTiles::next_tiles.  A call with a previous outcome returns the
empty batch; the first call collects the expansion, and the source's
expect("Invalid tiles") panic on an expansion error is modelled as none. -/
def CustomYamlTiles.next_tiles (t : CustomYamlTiles) (previous : Option TileFetchResult) :
    Option (List TileReference) :=
  if previous.isSome then some []
  else
    match collectResults t.tile_set.items with
    | Except.ok refs => some refs
    | Except.error _ => none

/-- CustomDezoomer::zoom_levels: gate on the identifier ending in tiles.yaml,
require the payload, parse it (serde_yaml is external, so the parse function is
a parameter; a parse error is wrapped), and produce a single level. -/
def CustomDezoomer.zoom_levels (parse : List Nat → Except String CustomYamlTiles)
    (data : DezoomerInput) : Except DezoomerError (List CustomYamlTiles) := do
  let _ ← dezoomerAssert (strEndsWith data.uri "tiles.yaml")
  let contents ← data.with_contents
  match parse contents with
  | Except.error e => Except.error (DezoomerError.wrapped e)
  | Except.ok dz => single_level dz

/-- The grid cell each emitted reference stands for, tracked alongside the
engine: this is the cell-level shadow of ZoomLevel.next_tiles (same case split,
same arithmetic), used by the host driver of the claims to decide which tiles
of a batch exist. -/
def next_cells (st : Stage) (success : Option Bool) : Stage × List (Nat × Nat) :=
  match success, st with
  | none, _ => (st, [(0, 0)])
  | some s, Stage.Init =>
    if s then (Stage.FirstLine 1, [(1, 0)]) else (st, [])
  | some s, Stage.FirstLine current_x =>
    if s then
      let cx := (current_x + 1) % U32M
      (Stage.FirstLine cx, [(cx, 0)])
    else
      let mx := (current_x + U32M - 1) % U32M
      (Stage.NextLines mx 1, (List.range (mx + 1)).map fun x => (x, 1))
  | some s, Stage.NextLines max_x current_y =>
    if s then
      let cy := (current_y + 1) % U32M
      (Stage.NextLines max_x cy, (List.range (max_x + 1)).map fun x => (x, cy))
    else (st, [])

/-- Membership of a grid cell in the true W by H rectangle of available
tiles. -/
def inGrid (W H : Nat) (cr : Nat × Nat) : Bool :=
  decide (cr.1 < W) && decide (cr.2 < H)

/-- The host outcome for a batch over a true W by H rectangular grid: every
tile whose cell lies in the grid succeeds, the reported tile size is ts and is
populated exactly when at least one tile of the batch succeeded. -/
def gridOutcome (W H : Nat) (ts : Vec2d) (cells : List (Nat × Nat)) : TileFetchResult :=
  { count := cells.length
  , successes := (cells.filter (inGrid W H)).length
  , tile_size := if cells.any (inGrid W H) then some ts else none }

/-- Result of driving the engine to exhaustion: final engine state, the cells
and references of every successful fetch in emission order, the stage after
each call, and whether the drive reached the empty batch (rather than running
out of fuel). -/
structure DriveResult where
  final : ZoomLevel
  succCells : List (Nat × Nat)
  succRefs : List TileReference
  stages : List Stage
  terminated : Bool
deriving DecidableEq

/-- Drive loop: given the engine state, the cells of the batch the host has
just fetched and the corresponding references, report the outcome to
next_tiles and continue on the returned batch; stop on an empty batch. -/
def driveAux (W H : Nat) (ts : Vec2d) :
    Nat → ZoomLevel → List (Nat × Nat) → List TileReference → DriveResult
  | 0, z, _, _ => { final := z, succCells := [], succRefs := [], stages := [], terminated := false }
  | fuel + 1, z, cells, refs =>
    if cells.isEmpty then
      { final := z, succCells := [], succRefs := [], stages := [], terminated := true }
    else
      let res := gridOutcome W H ts cells
      let step := z.next_tiles (some res)
      let cells2 := (next_cells z.stage (some res.is_success)).2
      let r := driveAux W H ts fuel step.1 cells2 step.2
      { final := r.final
      , succCells := cells.filter (inGrid W H) ++ r.succCells
      , succRefs :=
          (((cells.zip refs).filter fun cr => inGrid W H cr.1).map fun cr => cr.2) ++ r.succRefs
      , stages := step.1.stage :: r.stages
      , terminated := r.terminated }

/-- The zoom level GenericDezoomer::zoom_levels constructs for a template. -/
def mk_zoom_level (t : String) : ZoomLevel :=
  { url_template := t, stage := Stage.Init, tile_size := none }

/-- Full drive of a fresh engine over a true W by H grid: the first call is
made with no previous outcome, then the loop runs on its batch. -/
def drive (W H : Nat) (ts : Vec2d) (t : String) (fuel : Nat) : DriveResult :=
  let z0 := mk_zoom_level t
  let step0 := z0.next_tiles none
  driveAux W H ts fuel step0.1 (next_cells z0.stage none).2 step0.2

/-- Cells (x, 0), (x+1, 0), ..., (x+d-1, 0) of row zero. -/
def colCellsD : Nat → Nat → List (Nat × Nat)
  | _, 0 => []
  | x, d + 1 => (x, 0) :: colCellsD (x + 1) d

/-- Cells (0, y), ..., (W-1, y) of one row. -/
def rowCells (W y : Nat) : List (Nat × Nat) :=
  (List.range W).map fun c => (c, y)

/-- Rows y, y+1, ..., y+d-1 of a width-W grid, in row-major order. -/
def gridRowsD (W : Nat) : Nat → Nat → List (Nat × Nat)
  | _, 0 => []
  | y, d + 1 => rowCells W y ++ gridRowsD W (y + 1) d

/-- The reference the engine builds for a cell, as a function of the template
and the stored tile size only (ZoomLevel.tile_ref_at does not read the
stage). -/
def refAt (t : String) (ts : Option Vec2d) (cr : Nat × Nat) : TileReference :=
  ZoomLevel.tile_ref_at { url_template := t, stage := Stage.Init, tile_size := ts } cr.1 cr.2

/-- References of one row. -/
def rowRefs (t : String) (ts : Option Vec2d) (W y : Nat) : List TileReference :=
  (rowCells W y).map (refAt t ts)

/-- First-line stages FirstLine (x+1), ..., FirstLine (x+d). -/
def flStages : Nat → Nat → List Stage
  | _, 0 => []
  | x, d + 1 => Stage.FirstLine (x + 1) :: flStages (x + 1) d

/-- Row-scanning stages NextLines mx (y+1), ..., NextLines mx (y+d). -/
def nlStages (mx : Nat) : Nat → Nat → List Stage
  | _, 0 => []
  | y, d + 1 => Stage.NextLines mx (y + 1) :: nlStages mx (y + 1) d

/-- States of the engine reachable from a fresh zoom level by next_tiles calls
with arbitrary outcomes. -/
inductive Reachable (t : String) : ZoomLevel → Prop where
  | init : Reachable t (mk_zoom_level t)
  | step (z : ZoomLevel) (p : Option TileFetchResult) :
      Reachable t z → Reachable t (z.next_tiles p).1

/-- Step-indexed reachability: reachable in exactly n next_tiles calls. -/
inductive ReachableN (t : String) : Nat → ZoomLevel → Prop where
  | init : ReachableN t 0 (mk_zoom_level t)
  | step (n : Nat) (z : ZoomLevel) (p : Option TileFetchResult) :
      ReachableN t n z → ReachableN t (n + 1) (z.next_tiles p).1

/-- A sample valid tile reference for concrete instances. -/
def sampleTile : TileReference :=
  { url := "a", position := { x := 0, y := 0 } }

/-- A declarative provider whose expansion is valid and yields one tile. -/
def sampleTiles : CustomYamlTiles :=
  { tile_set := { items := [Except.ok sampleTile] }, headers := default_headers }

/-- A declarative provider whose configuration parses but whose expansion is
invalid: its iterator yields an expansion error. -/
def badTiles : CustomYamlTiles :=
  { tile_set := { items := [Except.error "unknown variable"] }, headers := default_headers }

/-- A fully successful singleton-batch outcome reporting tile size (1,1). -/
def goodRes : TileFetchResult :=
  { count := 1, successes := 1, tile_size := some { x := 1, y := 1 } }

/-- A failed singleton-batch outcome. -/
def badRes : TileFetchResult :=
  { count := 1, successes := 0, tile_size := none }

/-- The engine state after 1 + k consecutive successful first-line probes of
the template "t": FirstLine with the wrapped u32 counter (1 + k) mod 2^32. -/
def flProbe (k : Nat) : ZoomLevel :=
  { url_template := "t", stage := Stage.FirstLine ((1 + k) % U32M)
  , tile_size := some { x := 1, y := 1 } }

theorem tile_url_at_concrete : ZoomLevel.tile_url_at
    { url_template := "\x7b\x7bX\x7d\x7d,\x7b\x7bY\x7d\x7d", stage := Stage.Init, tile_size := none }
    2 1 = "2,1" := by decide

/-- Mirror of the source's own test_generic_dezoomer (src/generic/mod.rs):
template X,Y (with placeholder tokens), available tiles 0,0 1,0 2,0 0,1 1,1
2,1, reported tile size (4,5): the drive collects exactly those six references
at pixel positions (0,0) (4,0) (8,0) (0,5) (4,5) (8,5). -/
theorem source_test_generic_dezoomer :
    (drive 3 2 { x := 4, y := 5 } "\x7b\x7bX\x7d\x7d,\x7b\x7bY\x7d\x7d" 7).succRefs =
      [ { url := "0,0", position := { x := 0, y := 0 } }
      , { url := "1,0", position := { x := 4, y := 0 } }
      , { url := "2,0", position := { x := 8, y := 0 } }
      , { url := "0,1", position := { x := 0, y := 5 } }
      , { url := "1,1", position := { x := 4, y := 5 } }
      , { url := "2,1", position := { x := 8, y := 5 } } ] := by decide

theorem tile_ref_at_eq_refAt (t : String) (st : Stage) (ts : Option Vec2d) (x y : Nat) :
    ZoomLevel.tile_ref_at { url_template := t, stage := st, tile_size := ts } x y
      = refAt t ts (x, y) := rfl

theorem refAt_zero_cell (t : String) (ts : Vec2d) :
    refAt t none (0, 0) = refAt t (some ts) (0, 0) := by
  simp [refAt, ZoomLevel.tile_ref_at, Vec2d.mul, ZoomLevel.tile_url_at]

theorem driveAux_succ (W H : Nat) (ts : Vec2d) (n : Nat) (z : ZoomLevel)
    (cells : List (Nat × Nat)) (refs : List TileReference) :
    driveAux W H ts (n + 1) z cells refs =
      if cells.isEmpty then
        { final := z, succCells := [], succRefs := [], stages := [], terminated := true }
      else
        let res := gridOutcome W H ts cells
        let step := z.next_tiles (some res)
        let cells2 := (next_cells z.stage (some res.is_success)).2
        let r := driveAux W H ts n step.1 cells2 step.2
        { final := r.final
        , succCells := cells.filter (inGrid W H) ++ r.succCells
        , succRefs :=
            (((cells.zip refs).filter fun cr => inGrid W H cr.1).map fun cr => cr.2) ++ r.succRefs
        , stages := step.1.stage :: r.stages
        , terminated := r.terminated } := rfl

theorem zip_self_map_filter {α β : Type} (f : α → β) (p : α → Bool) :
    ∀ l : List α,
      (((l.zip (l.map f)).filter fun ab => p ab.1).map fun ab => ab.2) = (l.filter p).map f := by
  intro l
  induction l with
  | nil => rfl
  | cons a l ih =>
    rw [List.map_cons, List.zip_cons_cons, List.filter_cons, List.filter_cons]
    cases h : p a with
    | true =>
      simp only [h, if_true]
      rw [List.map_cons, ih]
      rfl
    | false =>
      simp only [h, Bool.false_eq_true, if_false]
      exact ih

theorem gridOutcome_success (W H : Nat) (ts : Vec2d) (cells : List (Nat × Nat))
    (h : ∀ c ∈ cells, inGrid W H c = true) :
    (gridOutcome W H ts cells).is_success = true := by
  simp [gridOutcome, TileFetchResult.is_success, List.filter_eq_self.mpr h]

theorem gridOutcome_fail (W H : Nat) (ts : Vec2d) (cells : List (Nat × Nat))
    (hne : cells ≠ []) (h : ∀ c ∈ cells, inGrid W H c = false) :
    (gridOutcome W H ts cells).is_success = false := by
  have hf : cells.filter (inGrid W H) = [] := by
    rw [List.filter_eq_nil_iff]
    intro a ha
    simp [h a ha]
  cases cells with
  | nil => exact absurd rfl hne
  | cons a l => simp [gridOutcome, TileFetchResult.is_success, hf]

theorem gridOutcome_tile_size_some (W H : Nat) (ts : Vec2d) (cells : List (Nat × Nat))
    (c : Nat × Nat) (hc : c ∈ cells) (h : inGrid W H c = true) :
    (gridOutcome W H ts cells).tile_size = some ts := by
  have : cells.any (inGrid W H) = true := List.any_eq_true.mpr ⟨c, hc, h⟩
  simp [gridOutcome, this]

theorem wsub_one (x : Nat) (h1 : 1 ≤ x) (h2 : x < U32M) :
    (x + U32M - 1) % U32M = x - 1 := by
  have e : x + U32M - 1 = (x - 1) + U32M := by omega
  rw [e, Nat.add_mod_right, Nat.mod_eq_of_lt (by omega)]

theorem rowCells_isEmpty_false (W y : Nat) (h : 1 ≤ W) :
    (rowCells W y).isEmpty = false := by
  obtain ⟨w, rfl⟩ : ∃ w, W = w + 1 := ⟨W - 1, by omega⟩
  simp [rowCells, List.range_succ_eq_map]

theorem mem_rowCells {W y : Nat} {cr : Nat × Nat} :
    cr ∈ rowCells W y ↔ cr.1 < W ∧ cr.2 = y := by
  constructor
  · intro h
    simp only [rowCells, List.mem_map, List.mem_range] at h
    obtain ⟨c, hc, rfl⟩ := h
    exact ⟨hc, rfl⟩
  · intro ⟨h1, h2⟩
    simp only [rowCells, List.mem_map, List.mem_range]
    exact ⟨cr.1, h1, by rw [← h2]⟩

theorem colCellsD_eq (d : Nat) : ∀ x, colCellsD x d = (List.range d).map fun i => (x + i, 0) := by
  induction d with
  | zero => intro x; simp [colCellsD]
  | succ d ih =>
    intro x
    rw [colCellsD, ih (x + 1), List.range_succ_eq_map, List.map_cons, List.map_map]
    have ht : List.map ((fun i => (x + i, 0)) ∘ Nat.succ) (List.range d)
        = List.map (fun i => (x + 1 + i, 0)) (List.range d) := by
      apply List.map_congr_left
      intro i _
      simp only [Function.comp_apply, Prod.mk.injEq, and_true]
      omega
    rw [ht]
    simp

theorem rowCells_zero_cons (W : Nat) (h : 1 ≤ W) :
    rowCells W 0 = (0, 0) :: colCellsD 1 (W - 1) := by
  obtain ⟨w, rfl⟩ : ∃ w, W = w + 1 := ⟨W - 1, by omega⟩
  simp only [Nat.add_sub_cancel]
  rw [rowCells, List.range_succ_eq_map, colCellsD_eq, List.map_cons, List.map_map]
  have ht : List.map ((fun c => (c, 0)) ∘ Nat.succ) (List.range w)
      = List.map (fun i => (1 + i, 0)) (List.range w) := by
    apply List.map_congr_left
    intro i _
    simp only [Function.comp_apply, Prod.mk.injEq, and_true]
    omega
  rw [ht]

theorem gridRowsD_length (W : Nat) : ∀ d y, (gridRowsD W y d).length = d * W := by
  intro d
  induction d with
  | zero => intro y; simp [gridRowsD]
  | succ d ih =>
    intro y
    simp only [gridRowsD, List.length_append, rowCells, List.length_map, List.length_range,
      ih (y + 1)]
    ring

theorem mem_gridRowsD (W : Nat) :
    ∀ d y c r, ((c, r) ∈ gridRowsD W y d) ↔ (c < W ∧ y ≤ r ∧ r < y + d) := by
  intro d
  induction d with
  | zero => intro y c r; simp [gridRowsD]
  | succ d ih =>
    intro y c r
    simp only [gridRowsD, List.mem_append, mem_rowCells, ih (y + 1)]
    constructor
    · rintro (⟨h1, h2⟩ | ⟨h1, h2, h3⟩) <;> exact ⟨h1, by omega, by omega⟩
    · rintro ⟨h1, h2, h3⟩
      rcases Nat.eq_or_lt_of_le h2 with h | h
      · exact Or.inl ⟨h1, h.symm⟩
      · exact Or.inr ⟨h1, by omega, by omega⟩

theorem gridRowsD_nodup (W : Nat) : ∀ d y, (gridRowsD W y d).Nodup := by
  intro d
  induction d with
  | zero => intro y; simp [gridRowsD]
  | succ d ih =>
    intro y
    rw [gridRowsD]
    apply List.Nodup.append
    · exact (List.nodup_range W).map (fun a b h => by simpa using congrArg Prod.fst h)
    · exact ih (y + 1)
    · intro a ha hb
      obtain ⟨c, r⟩ := a
      rw [mem_rowCells] at ha
      rw [mem_gridRowsD] at hb
      omega

theorem rowCells_ne_nil (W y : Nat) (h : 1 ≤ W) : rowCells W y ≠ [] := by
  intro hc
  have := congrArg List.isEmpty hc
  rw [rowCells_isEmpty_false W y h] at this
  simp at this

theorem rowCells_all_inGrid (W H y : Nat) (hy : y < H) :
    ∀ c ∈ rowCells W y, inGrid W H c = true := by
  intro c hc
  rw [mem_rowCells] at hc
  simp [inGrid, hc.1, hc.2, hy]

theorem rowCells_none_inGrid (W H y : Nat) (hy : H ≤ y) :
    ∀ c ∈ rowCells W y, inGrid W H c = false := by
  intro c hc
  rw [mem_rowCells] at hc
  simp [inGrid, hc.2]
  omega

theorem zip_filter_nil {α : Type} (W H : Nat) (cells : List (Nat × Nat)) (refs : List α)
    (h : ∀ c ∈ cells, inGrid W H c = false) :
    ((cells.zip refs).filter fun cr => inGrid W H cr.1) = [] := by
  rw [List.filter_eq_nil_iff]
  intro ab hab
  have := (List.of_mem_zip hab).1
  simp [h ab.1 this]

theorem mem_nlStages (mx : Nat) :
    ∀ d y0 y, y0 < y → y ≤ y0 + d → Stage.NextLines mx y ∈ nlStages mx y0 d := by
  intro d
  induction d with
  | zero => intro y0 y h1 h2; omega
  | succ d ih =>
    intro y0 y h1 h2
    rw [nlStages]
    by_cases h : y = y0 + 1
    · subst h
      exact List.mem_cons_self _ _
    · exact List.mem_cons_of_mem _ (ih (y0 + 1) y (by omega) (by omega))

theorem driveAux_empty (W H : Nat) (ts : Vec2d) (n : Nat) (z : ZoomLevel)
    (refs : List TileReference) :
    driveAux W H ts (n + 1) z [] refs =
      { final := z, succCells := [], succRefs := [], stages := [], terminated := true } := by
  rw [driveAux_succ]
  simp

theorem rowRefs_eq (t : String) (ts2 : Option Vec2d) (st : Stage) (W y : Nat) :
    ((List.range W).map fun x =>
        ZoomLevel.tile_ref_at { url_template := t, stage := st, tile_size := ts2 } x y)
      = rowRefs t ts2 W y := by
  simp only [rowRefs, rowCells, List.map_map]
  apply List.map_congr_left
  intro c _
  rfl

theorem driveAux_rows (W H : Nat) (ts : Vec2d) (t : String) (ts2 : Option Vec2d)
    (hW : 1 ≤ W) (hH : H < U32M) :
    ∀ d y, 1 ≤ y → y + d = H →
      driveAux W H ts (d + 2)
          { url_template := t, stage := Stage.NextLines (W - 1) y, tile_size := ts2 }
          (rowCells W y) (rowRefs t ts2 W y) =
        { final := { url_template := t, stage := Stage.NextLines (W - 1) H, tile_size := ts2 }
        , succCells := gridRowsD W y d
        , succRefs := (gridRowsD W y d).map (refAt t ts2)
        , stages := nlStages (W - 1) y d ++ [Stage.NextLines (W - 1) H]
        , terminated := true } := by
  intro d
  induction d with
  | zero =>
    intro y hy1 hyH
    have hy : y = H := by omega
    subst hy
    have hne : ¬((rowCells W y).isEmpty = true) := by
      rw [rowCells_isEmpty_false W y hW]
      exact Bool.false_ne_true
    have hfail : (gridOutcome W y ts (rowCells W y)).is_success = false :=
      gridOutcome_fail W y ts _ (rowCells_ne_nil W y hW) (rowCells_none_inGrid W y y le_rfl)
    have hfilt : (rowCells W y).filter (inGrid W y) = [] := by
      rw [List.filter_eq_nil_iff]
      intro a ha
      simp [rowCells_none_inGrid W y y le_rfl a ha]
    have hzip : (((rowCells W y).zip (rowRefs t ts2 W y)).filter fun cr => inGrid W y cr.1) = [] :=
      zip_filter_nil W y _ _ (rowCells_none_inGrid W y y le_rfl)
    have e2 : (0 + 2 : Nat) = 1 + 1 := rfl
    rw [e2, driveAux_succ, if_neg hne]
    simp only [ZoomLevel.next_tiles, next_cells, hfail, Bool.false_eq_true, if_false]
    rw [driveAux_empty]
    simp [hfilt, hzip, gridRowsD, nlStages]
  | succ d ih =>
    intro y hy1 hyH
    have hyH2 : y < H := by omega
    have hne : ¬((rowCells W y).isEmpty = true) := by
      rw [rowCells_isEmpty_false W y hW]
      exact Bool.false_ne_true
    have hsucc : (gridOutcome W H ts (rowCells W y)).is_success = true :=
      gridOutcome_success W H ts _ (rowCells_all_inGrid W H y hyH2)
    have hmod : (y + 1) % U32M = y + 1 := Nat.mod_eq_of_lt (by omega)
    have hw1 : W - 1 + 1 = W := by omega
    have hfilt : (rowCells W y).filter (inGrid W H) = rowCells W y :=
      List.filter_eq_self.mpr (rowCells_all_inGrid W H y hyH2)
    have hzip : ((((rowCells W y).zip (rowRefs t ts2 W y)).filter
          fun cr => inGrid W H cr.1).map fun cr => cr.2) = rowRefs t ts2 W y := by
      rw [rowRefs, zip_self_map_filter (refAt t ts2) (inGrid W H) (rowCells W y), hfilt]
    have e2 : (d + 1 + 2 : Nat) = (d + 2) + 1 := rfl
    rw [e2, driveAux_succ, if_neg hne]
    simp only [ZoomLevel.next_tiles, next_cells, hsucc, if_true, hmod, hw1]
    rw [show ((List.range W).map fun x => (x, y + 1)) = rowCells W (y + 1) from rfl]
    rw [rowRefs_eq t ts2 (Stage.NextLines (W - 1) (y + 1)) W (y + 1)]
    rw [ih (y + 1) (by omega) (by omega)]
    rw [hzip]
    simp only [hfilt]
    simp [gridRowsD, nlStages, rowRefs]

theorem driveAux_firstline (W H : Nat) (ts : Vec2d) (t : String) (ts2 : Option Vec2d)
    (hWm : W < U32M) (hH1 : 1 ≤ H) (hH : H < U32M) :
    ∀ d x, 1 ≤ x → x + d = W →
      driveAux W H ts (d + (H + 2))
          { url_template := t, stage := Stage.FirstLine x, tile_size := ts2 }
          [(x, 0)] [refAt t ts2 (x, 0)] =
        { final := { url_template := t, stage := Stage.NextLines (W - 1) H, tile_size := ts2 }
        , succCells := colCellsD x d ++ gridRowsD W 1 (H - 1)
        , succRefs := (colCellsD x d ++ gridRowsD W 1 (H - 1)).map (refAt t ts2)
        , stages := flStages x d ++ Stage.NextLines (W - 1) 1 ::
            (nlStages (W - 1) 1 (H - 1) ++ [Stage.NextLines (W - 1) H])
        , terminated := true } := by
  intro d
  induction d with
  | zero =>
    intro x hx1 hxW
    have hx : W = x := by omega
    subst hx
    have hW1 : 1 ≤ W := hx1
    have hnotin : ∀ c ∈ [((W : Nat), (0 : Nat))], inGrid W H c = false := by
      intro c hc
      rw [List.mem_singleton] at hc
      subst hc
      simp [inGrid]
    have hfail : (gridOutcome W H ts [(W, 0)]).is_success = false :=
      gridOutcome_fail W H ts _ (by simp) hnotin
    have hfilt : ([((W : Nat), (0 : Nat))].filter (inGrid W H)) = [] := by
      rw [List.filter_eq_nil_iff]
      intro a ha
      simp [hnotin a ha]
    have hzip : ((([((W : Nat), (0 : Nat))].zip [refAt t ts2 (W, 0)]).filter
          fun cr => inGrid W H cr.1).map fun cr => cr.2) = [] := by
      rw [zip_filter_nil W H _ _ hnotin]
      rfl
    have hsub : (W + U32M - 1) % U32M = W - 1 := wsub_one W hW1 hWm
    have hw1 : W - 1 + 1 = W := by omega
    have e2 : (0 + (H + 2) : Nat) = (H + 1) + 1 := by omega
    rw [e2, driveAux_succ, if_neg (by simp)]
    simp only [ZoomLevel.next_tiles, next_cells, hfail, Bool.false_eq_true, if_false,
      hsub, hw1]
    rw [show ((List.range W).map fun x => (x, 1)) = rowCells W 1 from rfl]
    rw [rowRefs_eq t ts2 (Stage.NextLines (W - 1) 1) W 1]
    rw [show (H + 1 : Nat) = (H - 1) + 2 from by omega]
    rw [driveAux_rows W H ts t ts2 hW1 hH (H - 1) 1 le_rfl (by omega)]
    rw [hzip]
    simp [hfilt, colCellsD, flStages]
  | succ d ih =>
    intro x hx1 hxW
    have hxW2 : x < W := by omega
    have hallin : ∀ c ∈ [((x : Nat), (0 : Nat))], inGrid W H c = true := by
      intro c hc
      rw [List.mem_singleton] at hc
      subst hc
      simp only [inGrid]
      rw [Bool.and_eq_true, decide_eq_true_iff, decide_eq_true_iff]
      exact ⟨hxW2, by omega⟩
    have hsucc : (gridOutcome W H ts [(x, 0)]).is_success = true :=
      gridOutcome_success W H ts _ hallin
    have hmod : (x + 1) % U32M = x + 1 := Nat.mod_eq_of_lt (by omega)
    have hfilt : ([((x : Nat), (0 : Nat))].filter (inGrid W H)) = [(x, 0)] :=
      List.filter_eq_self.mpr hallin
    have hzip : ((([((x : Nat), (0 : Nat))].zip [refAt t ts2 (x, 0)]).filter
          fun cr => inGrid W H cr.1).map fun cr => cr.2) = [refAt t ts2 (x, 0)] := by
      have := zip_self_map_filter (refAt t ts2) (inGrid W H) [(x, 0)]
      simp only [List.map_cons, List.map_nil] at this
      rw [this, hfilt]
      rfl
    have e2 : (d + 1 + (H + 2) : Nat) = (d + (H + 2)) + 1 := by omega
    rw [e2, driveAux_succ, if_neg (by simp)]
    simp only [ZoomLevel.next_tiles, next_cells, hsucc, if_true, hmod]
    rw [show (ZoomLevel.tile_ref_at
        { url_template := t, stage := Stage.FirstLine (x + 1), tile_size := ts2 }
        (x + 1) 0) = refAt t ts2 (x + 1, 0) from rfl]
    rw [ih (x + 1) (by omega) (by omega)]
    rw [hzip]
    simp [hfilt, colCellsD, flStages]

theorem gridRows_decomp (W H : Nat) (hW1 : 1 ≤ W) (hH1 : 1 ≤ H) :
    gridRowsD W 0 H = (0, 0) :: (colCellsD 1 (W - 1) ++ gridRowsD W 1 (H - 1)) := by
  obtain ⟨h, rfl⟩ : ∃ h, H = h + 1 := ⟨H - 1, by omega⟩
  rw [gridRowsD, rowCells_zero_cons W hW1]
  simp [Nat.add_sub_cancel]

theorem drive_eq (W H : Nat) (ts : Vec2d) (t : String)
    (hW1 : 1 ≤ W) (hWm : W < U32M) (hH1 : 1 ≤ H) (hHm : H < U32M) :
    drive W H ts t (W + H + 2) =
      { final := { url_template := t, stage := Stage.NextLines (W - 1) H, tile_size := some ts }
      , succCells := gridRowsD W 0 H
      , succRefs := (gridRowsD W 0 H).map (refAt t (some ts))
      , stages := Stage.FirstLine 1 :: (flStages 1 (W - 1) ++ Stage.NextLines (W - 1) 1 ::
          (nlStages (W - 1) 1 (H - 1) ++ [Stage.NextLines (W - 1) H]))
      , terminated := true } := by
  have hallin : ∀ c ∈ [((0 : Nat), (0 : Nat))], inGrid W H c = true := by
    intro c hc
    rw [List.mem_singleton] at hc
    subst hc
    simp only [inGrid]
    rw [Bool.and_eq_true, decide_eq_true_iff, decide_eq_true_iff]
    exact ⟨by omega, by omega⟩
  have hsucc : (gridOutcome W H ts [(0, 0)]).is_success = true :=
    gridOutcome_success W H ts _ hallin
  have htsz : (gridOutcome W H ts [(0, 0)]).tile_size = some ts :=
    gridOutcome_tile_size_some W H ts _ (0, 0) (by simp) (hallin (0, 0) (by simp))
  have hfilt : ([((0 : Nat), (0 : Nat))].filter (inGrid W H)) = [(0, 0)] :=
    List.filter_eq_self.mpr hallin
  have hzip : ((([((0 : Nat), (0 : Nat))].zip [refAt t none (0, 0)]).filter
        fun cr => inGrid W H cr.1).map fun cr => cr.2) = [refAt t none (0, 0)] := by
    have := zip_self_map_filter (refAt t none) (inGrid W H) [(0, 0)]
    simp only [List.map_cons, List.map_nil] at this
    rw [this, hfilt]
    rfl
  have ef : (W + H + 2 : Nat) = ((W - 1) + (H + 2)) + 1 := by omega
  rw [drive]
  simp only [mk_zoom_level, ZoomLevel.next_tiles, next_cells]
  rw [show (ZoomLevel.tile_ref_at
      { url_template := t, stage := Stage.Init, tile_size := none } 0 0)
      = refAt t none (0, 0) from rfl]
  rw [ef, driveAux_succ, if_neg (by simp)]
  simp only [ZoomLevel.next_tiles, next_cells, hsucc, if_true, htsz]
  rw [show (ZoomLevel.tile_ref_at
      { url_template := t, stage := Stage.FirstLine 1, tile_size := some ts } 1 0)
      = refAt t (some ts) (1, 0) from rfl]
  rw [driveAux_firstline W H ts t (some ts) hWm hH1 hHm (W - 1) 1 le_rfl (by omega)]
  rw [hzip]
  simp only [hfilt]
  rw [gridRows_decomp W H hW1 hH1]
  simp only [List.map_cons]
  simp
  exact refAt_zero_cell t ts

/-- C1 (amended): driving the grid-discovery engine from a None call over a
true rectangular grid of u32-representable width W >= 1 and height H >= 1,
with a batch marked successful iff every tile of it lies in the grid, the
sequence of calls terminates with an empty batch; the tile references whose
fetch succeeded are exactly one per grid cell (W*H of them, in row-major
order); the engine reaches max_x = W - 1 and visits NextLines (W-1) y for
every row 1 <= y <= H, terminating in state NextLines (W-1) H -- that is,
with current_y = H, one past the last row, rather than the claimed H - 1
(which is visited only when H >= 2). -/
theorem c1_grid_discovery (W H : Nat) (ts : Vec2d) (t : String)
    (hW1 : 1 ≤ W) (hWm : W < U32M) (hH1 : 1 ≤ H) (hHm : H < U32M) :
    (drive W H ts t (W + H + 2)).terminated = true
    ∧ (drive W H ts t (W + H + 2)).succCells = gridRowsD W 0 H
    ∧ (drive W H ts t (W + H + 2)).succCells.length = W * H
    ∧ (∀ c r : Nat, ((c, r) ∈ (drive W H ts t (W + H + 2)).succCells) ↔ (c < W ∧ r < H))
    ∧ (drive W H ts t (W + H + 2)).succCells.Nodup
    ∧ (drive W H ts t (W + H + 2)).succRefs = (gridRowsD W 0 H).map (refAt t (some ts))
    ∧ (drive W H ts t (W + H + 2)).final.stage = Stage.NextLines (W - 1) H
    ∧ (∀ y : Nat, 1 ≤ y → y ≤ H →
        Stage.NextLines (W - 1) y ∈ (drive W H ts t (W + H + 2)).stages) := by
  have hd := drive_eq W H ts t hW1 hWm hH1 hHm
  rw [hd]
  refine ⟨rfl, rfl, ?_, ?_, ?_, rfl, rfl, ?_⟩
  · rw [gridRowsD_length]
    ring
  · intro c r
    rw [mem_gridRowsD]
    omega
  · exact gridRowsD_nodup W H 0
  · intro y hy1 hyH
    apply List.mem_cons_of_mem
    apply List.mem_append_right
    by_cases hy : y = 1
    · subst hy
      exact List.mem_cons_self _ _
    · apply List.mem_cons_of_mem
      apply List.mem_append_left
      exact mem_nlStages (W - 1) (H - 1) 1 y (by omega) (by omega)

/-- C1 counterexample: on the single-tile grid W = 1, H = 1 the drive does
terminate with exactly W*H = 1 discovered tile, but the engine never reaches a
state with max_x = W - 1 = 0 and current_y = H - 1 = 0: the row counter starts
at 1, so NextLines 0 0 is absent from the visited stages. -/
theorem c1_counterexample :
    (drive 1 1 { x := 4, y := 5 } "\x7b\x7bX\x7d\x7d,\x7b\x7bY\x7d\x7d" 4).terminated = true
    ∧ (drive 1 1 { x := 4, y := 5 } "\x7b\x7bX\x7d\x7d,\x7b\x7bY\x7d\x7d" 4).succCells.length = 1
    ∧ Stage.NextLines 0 0 ∉
        (drive 1 1 { x := 4, y := 5 } "\x7b\x7bX\x7d\x7d,\x7b\x7bY\x7d\x7d" 4).stages := by
  refine ⟨by decide, by decide, by decide⟩

/-- Witness for c1_grid_discovery at W = 2, H = 2. -/
theorem c1_grid_discovery_witness :
    (drive 2 2 { x := 4, y := 5 } "t" 6).terminated = true
    ∧ (drive 2 2 { x := 4, y := 5 } "t" 6).succCells.length = 2 * 2 :=
  ⟨(c1_grid_discovery 2 2 { x := 4, y := 5 } "t"
      (by decide) (by decide) (by decide) (by decide)).1,
   (c1_grid_discovery 2 2 { x := 4, y := 5 } "t"
      (by decide) (by decide) (by decide) (by decide)).2.2.1⟩

/-- C9: a next_tiles call with argument None, made in any state whatsoever,
returns exactly the single-tile batch for grid cell (0,0) and leaves the
engine -- its stage and its stored tile size -- unchanged. -/
theorem c9_none_call (z : ZoomLevel) :
    z.next_tiles none = (z, [z.tile_ref_at 0 0]) := by
  rcases z with ⟨t, st, ts⟩
  cases st <;> rfl

/-- C2: every reference emitted by next_tiles is the engine's reference for a
grid cell (c, r) -- ref = tile_ref_at c r of the post-call state -- and its
pixel position equals that cell multiplied component-wise by the tile size
stored after the call (the zero vector standing in while none is known); the
stored tile size is
assigned exactly at the Init-to-FirstLine transition, where it becomes the
size reported by the first successful outcome, and every call made in any
stage other than Init preserves it, regardless of the tile sizes reported by
later outcomes. -/
theorem c2_tile_size_invariant (z : ZoomLevel) (p : Option TileFetchResult) :
    (∀ ref ∈ (z.next_tiles p).2, ∃ c r : Nat,
        ref = ((z.next_tiles p).1).tile_ref_at c r
        ∧ ref.position = Vec2d.mul { x := c, y := r }
          (((z.next_tiles p).1).tile_size.getD { x := 0, y := 0 }))
    ∧ (z.stage ≠ Stage.Init → ((z.next_tiles p).1).tile_size = z.tile_size)
    ∧ (∀ res : TileFetchResult, p = some res → res.is_success = true →
        z.stage = Stage.Init → ((z.next_tiles p).1).tile_size = res.tile_size) := by
  rcases z with ⟨t, st, ts⟩
  cases p with
  | none =>
    refine ⟨?_, ?_, ?_⟩
    · intro ref href
      cases st <;>
        · simp only [ZoomLevel.next_tiles, List.mem_singleton] at href
          subst href
          exact ⟨0, 0, rfl, rfl⟩
    · intro _
      cases st <;> rfl
    · intro res hres
      exact absurd hres (by simp)
  | some res =>
    cases hs : res.is_success with
    | true =>
      cases st with
      | Init =>
        refine ⟨?_, ?_, ?_⟩
        · intro ref href
          simp only [ZoomLevel.next_tiles, hs, if_true, List.mem_singleton] at href
          subst href
          refine ⟨1, 0, ?_, ?_⟩ <;>
            simp [ZoomLevel.next_tiles, hs, ZoomLevel.tile_ref_at]
        · intro hst
          exact absurd rfl hst
        · intro res2 heq _ _
          cases heq
          simp [ZoomLevel.next_tiles, hs]
      | FirstLine cx =>
        refine ⟨?_, ?_, ?_⟩
        · intro ref href
          simp only [ZoomLevel.next_tiles, hs, if_true, List.mem_singleton] at href
          subst href
          refine ⟨(cx + 1) % U32M, 0, ?_, ?_⟩ <;>
            simp [ZoomLevel.next_tiles, hs, ZoomLevel.tile_ref_at]
        · intro _
          simp [ZoomLevel.next_tiles, hs]
        · intro res2 _ _ hst
          exact absurd hst (by simp)
      | NextLines mx cy =>
        refine ⟨?_, ?_, ?_⟩
        · intro ref href
          simp only [ZoomLevel.next_tiles, hs, if_true, List.mem_map,
            List.mem_range] at href
          obtain ⟨c, _, rfl⟩ := href
          refine ⟨c, (cy + 1) % U32M, ?_, ?_⟩ <;>
            simp [ZoomLevel.next_tiles, hs, ZoomLevel.tile_ref_at]
        · intro _
          simp [ZoomLevel.next_tiles, hs]
        · intro res2 _ _ hst
          exact absurd hst (by simp)
    | false =>
      cases st with
      | Init =>
        refine ⟨?_, ?_, ?_⟩
        · intro ref href
          simp [ZoomLevel.next_tiles, hs] at href
        · intro hst
          exact absurd rfl hst
        · intro res2 heq hsucc _
          cases heq
          rw [hs] at hsucc
          cases hsucc
      | FirstLine cx =>
        refine ⟨?_, ?_, ?_⟩
        · intro ref href
          simp only [ZoomLevel.next_tiles, hs, Bool.false_eq_true, if_false,
            List.mem_map, List.mem_range] at href
          obtain ⟨c, _, rfl⟩ := href
          refine ⟨c, 1, ?_, ?_⟩ <;>
            simp [ZoomLevel.next_tiles, hs, ZoomLevel.tile_ref_at]
        · intro _
          simp [ZoomLevel.next_tiles, hs]
        · intro res2 _ _ hst
          exact absurd hst (by simp)
      | NextLines mx cy =>
        refine ⟨?_, ?_, ?_⟩
        · intro ref href
          simp [ZoomLevel.next_tiles, hs] at href
        · intro _
          simp [ZoomLevel.next_tiles, hs]
        · intro res2 _ _ hst
          exact absurd hst (by simp)

/-- Witness for c2_tile_size_invariant: in a post-Init state the stored tile
size (4,5) survives a later outcome that reports a different size (9,9). -/
theorem c2_tile_size_invariant_witness :
    ((ZoomLevel.next_tiles
        { url_template := "t", stage := Stage.FirstLine 1, tile_size := some { x := 4, y := 5 } }
        (some { count := 1, successes := 1, tile_size := some { x := 9, y := 9 } })).1).tile_size
      = some { x := 4, y := 5 } :=
  (c2_tile_size_invariant
    { url_template := "t", stage := Stage.FirstLine 1, tile_size := some { x := 4, y := 5 } }
    (some { count := 1, successes := 1, tile_size := some { x := 9, y := 9 } })).2.1
    (by decide)

/-- C8: every reference emitted by next_tiles is the engine's reference for a
grid cell (c, r), and its address is the template with every occurrence of the
column placeholder replaced by the decimal representation of c and every
occurrence of the row placeholder replaced by the decimal representation of r,
recomputed from the template on each call. -/
theorem c8_address_templating (z : ZoomLevel) (p : Option TileFetchResult) :
    ∀ ref ∈ (z.next_tiles p).2, ∃ c r : Nat,
      ref = ((z.next_tiles p).1).tile_ref_at c r
      ∧ ref.url = replaceStr (replaceStr z.url_template xToken (toString c))
          yToken (toString r) := by
  rcases z with ⟨t, st, ts⟩
  cases p with
  | none =>
    intro ref href
    cases st <;>
      · simp only [ZoomLevel.next_tiles, List.mem_singleton] at href
        subst href
        exact ⟨0, 0, rfl, rfl⟩
  | some res =>
    cases hs : res.is_success with
    | true =>
      cases st with
      | Init =>
        intro ref href
        simp only [ZoomLevel.next_tiles, hs, if_true, List.mem_singleton] at href
        subst href
        refine ⟨1, 0, ?_, ?_⟩ <;>
          simp [ZoomLevel.next_tiles, hs, ZoomLevel.tile_ref_at, ZoomLevel.tile_url_at]
      | FirstLine cx =>
        intro ref href
        simp only [ZoomLevel.next_tiles, hs, if_true, List.mem_singleton] at href
        subst href
        refine ⟨(cx + 1) % U32M, 0, ?_, ?_⟩ <;>
          simp [ZoomLevel.next_tiles, hs, ZoomLevel.tile_ref_at, ZoomLevel.tile_url_at]
      | NextLines mx cy =>
        intro ref href
        simp only [ZoomLevel.next_tiles, hs, if_true, List.mem_map, List.mem_range] at href
        obtain ⟨c, _, rfl⟩ := href
        refine ⟨c, (cy + 1) % U32M, ?_, ?_⟩ <;>
          simp [ZoomLevel.next_tiles, hs, ZoomLevel.tile_ref_at, ZoomLevel.tile_url_at]
    | false =>
      cases st with
      | Init =>
        intro ref href
        simp [ZoomLevel.next_tiles, hs] at href
      | FirstLine cx =>
        intro ref href
        simp only [ZoomLevel.next_tiles, hs, Bool.false_eq_true, if_false,
          List.mem_map, List.mem_range] at href
        obtain ⟨c, _, rfl⟩ := href
        refine ⟨c, 1, ?_, ?_⟩ <;>
          simp [ZoomLevel.next_tiles, hs, ZoomLevel.tile_ref_at, ZoomLevel.tile_url_at]
      | NextLines mx cy =>
        intro ref href
        simp [ZoomLevel.next_tiles, hs] at href

/-- Witness for c8_address_templating on the first probe of a fresh engine. -/
theorem c8_address_templating_witness :
    ∃ c r : Nat,
      (mk_zoom_level "u").tile_ref_at 0 0
        = (((mk_zoom_level "u").next_tiles none).1).tile_ref_at c r
      ∧ ((mk_zoom_level "u").tile_ref_at 0 0).url
        = replaceStr (replaceStr (mk_zoom_level "u").url_template xToken (toString c))
            yToken (toString r) :=
  c8_address_templating (mk_zoom_level "u") none
    ((mk_zoom_level "u").tile_ref_at 0 0) (by decide)

/-- C5: for a single usable tile (W = 1, H = 1): the None call returns the
cell (0,0) batch; a successful outcome carrying a tile size moves the engine
to FirstLine 1 and yields the cell (1,0) batch; a failing outcome then moves
it to the row-scanning state NextLines with max_x = 0 and yields the cell
(0,1) batch; a further failing outcome yields the empty batch; and driving
over the true 1 by 1 grid discovers exactly one tile. -/
theorem c5_single_tile (t : String) (ts : Vec2d) (res1 res2 res3 : TileFetchResult)
    (h1s : res1.is_success = true) (h1t : res1.tile_size = some ts)
    (h2s : res2.is_success = false) (h3s : res3.is_success = false) :
    (mk_zoom_level t).next_tiles none
      = (mk_zoom_level t, [(mk_zoom_level t).tile_ref_at 0 0])
    ∧ (mk_zoom_level t).next_tiles (some res1)
      = ({ url_template := t, stage := Stage.FirstLine 1, tile_size := some ts },
         [ZoomLevel.tile_ref_at
           { url_template := t, stage := Stage.FirstLine 1, tile_size := some ts } 1 0])
    ∧ ZoomLevel.next_tiles
        { url_template := t, stage := Stage.FirstLine 1, tile_size := some ts } (some res2)
      = ({ url_template := t, stage := Stage.NextLines 0 1, tile_size := some ts },
         [ZoomLevel.tile_ref_at
           { url_template := t, stage := Stage.NextLines 0 1, tile_size := some ts } 0 1])
    ∧ ZoomLevel.next_tiles
        { url_template := t, stage := Stage.NextLines 0 1, tile_size := some ts } (some res3)
      = ({ url_template := t, stage := Stage.NextLines 0 1, tile_size := some ts }, [])
    ∧ (∀ tsv : Vec2d,
        (drive 1 1 tsv t 4).succCells = [(0, 0)] ∧ (drive 1 1 tsv t 4).terminated = true) := by
  have hm : (1 + U32M - 1) % U32M = 0 := by decide
  refine ⟨rfl, ?_, ?_, ?_, ?_⟩
  · simp only [mk_zoom_level, ZoomLevel.next_tiles, h1s, if_true, h1t]
  · simp only [ZoomLevel.next_tiles, h2s, Bool.false_eq_true, if_false, hm]
    simp [List.range_succ]
  · simp only [ZoomLevel.next_tiles, h3s, Bool.false_eq_true, if_false]
  · intro tsv
    have hd := drive_eq 1 1 tsv t (by decide) (by decide) (by decide) (by decide)
    rw [show (4 : Nat) = 1 + 1 + 2 from rfl, hd]
    exact ⟨rfl, rfl⟩

/-- Witness for c5_single_tile: the fourth call returns the empty batch. -/
theorem c5_single_tile_witness :
    ZoomLevel.next_tiles
        { url_template := "t", stage := Stage.NextLines 0 1, tile_size := some { x := 4, y := 5 } }
        (some { count := 1, successes := 0, tile_size := none })
      = ({ url_template := "t", stage := Stage.NextLines 0 1,
           tile_size := some { x := 4, y := 5 } }, []) :=
  (c5_single_tile "t" { x := 4, y := 5 }
    { count := 1, successes := 1, tile_size := some { x := 4, y := 5 } }
    { count := 1, successes := 0, tile_size := none }
    { count := 1, successes := 0, tile_size := none }
    (by decide) (by decide) (by decide) (by decide)).2.2.2.1

/-- C6: if the very first probe fails, the first call (None) returns exactly
the cell (0,0) batch, the second call (a failing outcome in the Init state)
returns the empty batch leaving the engine unchanged, and driving over an
empty grid discovers zero tiles; next_tiles is a total function, so no error
is ever raised. -/
theorem c6_first_probe_fails (t : String) (res : TileFetchResult)
    (hs : res.is_success = false) :
    (mk_zoom_level t).next_tiles none
      = (mk_zoom_level t, [(mk_zoom_level t).tile_ref_at 0 0])
    ∧ (mk_zoom_level t).next_tiles (some res) = (mk_zoom_level t, [])
    ∧ (∀ tsv : Vec2d,
        (drive 0 0 tsv t 2).succCells = [] ∧ (drive 0 0 tsv t 2).terminated = true) := by
  refine ⟨rfl, ?_, ?_⟩
  · simp only [mk_zoom_level, ZoomLevel.next_tiles, hs, Bool.false_eq_true, if_false]
  · intro tsv
    have hnotin : ∀ c ∈ [((0 : Nat), (0 : Nat))], inGrid 0 0 c = false := by
      intro c hc
      rw [List.mem_singleton] at hc
      subst hc
      rfl
    have hfail : (gridOutcome 0 0 tsv [(0, 0)]).is_success = false :=
      gridOutcome_fail 0 0 tsv _ (by simp) hnotin
    rw [drive]
    simp only [mk_zoom_level, ZoomLevel.next_tiles, next_cells]
    rw [show (2 : Nat) = 1 + 1 from rfl, driveAux_succ, if_neg (by simp)]
    simp only [ZoomLevel.next_tiles, next_cells, hfail, Bool.false_eq_true, if_false]
    rw [driveAux_empty]
    simp
    rfl

/-- Witness for c6_first_probe_fails. -/
theorem c6_first_probe_fails_witness :
    (mk_zoom_level "t").next_tiles (some { count := 1, successes := 0, tile_size := none })
      = (mk_zoom_level "t", []) :=
  (c6_first_probe_fails "t" { count := 1, successes := 0, tile_size := none } (by decide)).2.1

/-- C7: GenericDezoomer::zoom_levels rejects with the not-applicable error
exactly when the resource identifier does not contain the column placeholder
token; when it does, the call succeeds with exactly one zoom level whose
template is the identifier, whose stage is Init and whose tile size is
unknown. -/
theorem c7_generic_gate (data : DezoomerInput) :
    (strContains data.uri xToken = false →
      GenericDezoomer.zoom_levels data = Except.error DezoomerError.NotApplicable)
    ∧ (strContains data.uri xToken = true →
      GenericDezoomer.zoom_levels data
        = Except.ok [{ url_template := data.uri, stage := Stage.Init, tile_size := none }]) := by
  constructor <;> intro h <;>
    simp [GenericDezoomer.zoom_levels, dezoomerAssert, h, single_level, Bind.bind, Except.bind]

/-- Witness for c7_generic_gate on a template that contains the column
placeholder. -/
theorem c7_generic_gate_witness :
    GenericDezoomer.zoom_levels
        { uri := "\x7b\x7bX\x7d\x7d,\x7b\x7bY\x7d\x7d", contents := none }
      = Except.ok [mk_zoom_level "\x7b\x7bX\x7d\x7d,\x7b\x7bY\x7d\x7d"] :=
  (c7_generic_gate { uri := "\x7b\x7bX\x7d\x7d,\x7b\x7bY\x7d\x7d", contents := none }).2
    (by decide)

/-- C3 (amended): the declarative provider is stateless.  A call with no
previous outcome returns the entire pre-expanded tile sequence in its declared
order (whenever the expansion is valid); every call carrying a previous
outcome returns the empty sequence regardless of the outcome's contents.
Under the conforming protocol (one None call first, outcomes thereafter) every
subsequent call therefore returns the empty sequence; but a repeated None
call returns the full sequence again, not the empty one. -/
theorem c3_declarative_provider (t : CustomYamlTiles) :
    (∀ refs : List TileReference, collectResults t.tile_set.items = Except.ok refs →
      t.next_tiles none = some refs)
    ∧ (∀ res : TileFetchResult, t.next_tiles (some res) = some []) := by
  constructor
  · intro refs h
    simp [CustomYamlTiles.next_tiles, h]
  · intro res
    simp [CustomYamlTiles.next_tiles]

/-- C3 counterexample: the provider keeps no exhaustion state (next_tiles is a
pure function of the provider and its argument), so a second call with
argument None evaluates exactly like the first and returns the whole
pre-expanded sequence again -- not the empty sequence the claim asserts for
every subsequent call. -/
theorem c3_counterexample :
    sampleTiles.next_tiles none = some [sampleTile]
    ∧ sampleTiles.next_tiles none ≠ some [] := by
  exact ⟨by decide, by decide⟩

/-- Witness for c3_declarative_provider on the sample provider. -/
theorem c3_declarative_provider_witness :
    sampleTiles.next_tiles none = some [sampleTile]
    ∧ sampleTiles.next_tiles (some goodRes) = some [] :=
  ⟨(c3_declarative_provider sampleTiles).1 [sampleTile] (by decide),
   (c3_declarative_provider sampleTiles).2 goodRes⟩

/-- C4 (amended): a parse failure of the configuration document surfaces at
construction: zoom_levels returns the wrapped parse error.  A successful parse
constructs the single zoom level without examining the expansion, so an
invalid expansion is not rejected at construction; it instead aborts at the
first discovery call (the source's expect("Invalid tiles") panic, modelled as
none) -- and calls with a previous outcome never fail. -/
theorem c4_construction_errors (parse : List Nat → Except String CustomYamlTiles)
    (data : DezoomerInput) (bs : List Nat) (msg : String) :
    (strEndsWith data.uri "tiles.yaml" = true → data.contents = some bs →
      parse bs = Except.error msg →
      CustomDezoomer.zoom_levels parse data = Except.error (DezoomerError.wrapped msg))
    ∧ (∀ tcfg : CustomYamlTiles,
        strEndsWith data.uri "tiles.yaml" = true → data.contents = some bs →
        parse bs = Except.ok tcfg →
        CustomDezoomer.zoom_levels parse data = Except.ok [tcfg])
    ∧ (∀ tcfg : CustomYamlTiles, ∀ res : TileFetchResult,
        tcfg.next_tiles (some res) = some [])
    ∧ (∀ tcfg : CustomYamlTiles,
        (tcfg.next_tiles none = none
          ↔ ∃ e : String, collectResults tcfg.tile_set.items = Except.error e)) := by
  refine ⟨?_, ?_, ?_, ?_⟩
  · intro hu hc hp
    simp [CustomDezoomer.zoom_levels, dezoomerAssert, hu, DezoomerInput.with_contents, hc, hp,
      single_level, Bind.bind, Except.bind]
  · intro tcfg hu hc hp
    simp [CustomDezoomer.zoom_levels, dezoomerAssert, hu, DezoomerInput.with_contents, hc, hp,
      single_level, Bind.bind, Except.bind]
  · intro tcfg res
    simp [CustomYamlTiles.next_tiles]
  · intro tcfg
    cases hcoll : collectResults tcfg.tile_set.items with
    | ok refs =>
      simp [CustomYamlTiles.next_tiles, hcoll]
    | error e =>
      simp [CustomYamlTiles.next_tiles, hcoll]

/-- C4 counterexample: a configuration that parses but expands invalidly is
accepted by zoom_levels (construction succeeds), and the error then surfaces
at the first next_tiles call as a panic (modelled none) -- not at
construction as the claim states. -/
theorem c4_counterexample :
    CustomDezoomer.zoom_levels (fun _ => Except.ok badTiles)
        { uri := "tiles.yaml", contents := some [] }
      = Except.ok [badTiles]
    ∧ badTiles.next_tiles none = none := by
  exact ⟨by decide, by decide⟩

/-- Witness for c4_construction_errors: a failing parse is reported as a
wrapped construction error. -/
theorem c4_construction_errors_witness :
    CustomDezoomer.zoom_levels (fun _ => Except.error "bad yaml")
        { uri := "tiles.yaml", contents := some [] }
      = Except.error (DezoomerError.wrapped "bad yaml") :=
  (c4_construction_errors (fun _ => Except.error "bad yaml")
    { uri := "tiles.yaml", contents := some [] } [] "bad yaml").1
    (by decide) (by decide) (by decide)

theorem next_tiles_fl_fail (u : String) (ts : Option Vec2d) (cx : Nat)
    (res : TileFetchResult) (hs : res.is_success = false) :
    ZoomLevel.next_tiles
        { url_template := u, stage := Stage.FirstLine cx, tile_size := ts } (some res)
      = ({ url_template := u, stage := Stage.NextLines ((cx + U32M - 1) % U32M) 1
         , tile_size := ts },
         (List.range ((cx + U32M - 1) % U32M + 1)).map fun x =>
           ZoomLevel.tile_ref_at
             { url_template := u, stage := Stage.NextLines ((cx + U32M - 1) % U32M) 1
             , tile_size := ts } x 1) := by
  simp [ZoomLevel.next_tiles, hs]

theorem next_tiles_nl_succ (u : String) (ts : Option Vec2d) (mx cy : Nat)
    (res : TileFetchResult) (hs : res.is_success = true) :
    ZoomLevel.next_tiles
        { url_template := u, stage := Stage.NextLines mx cy, tile_size := ts } (some res)
      = ({ url_template := u, stage := Stage.NextLines mx ((cy + 1) % U32M)
         , tile_size := ts },
         (List.range (mx + 1)).map fun x =>
           ZoomLevel.tile_ref_at
             { url_template := u, stage := Stage.NextLines mx ((cy + 1) % U32M)
             , tile_size := ts } x ((cy + 1) % U32M)) := by
  simp [ZoomLevel.next_tiles, hs]

theorem reachableN_firstline_bound (t : String) :
    ∀ n z, ReachableN t n z → n < U32M →
      ∀ x : Nat, z.stage = Stage.FirstLine x → 1 ≤ x ∧ x ≤ n := by
  intro n z hr
  induction hr with
  | init =>
    intro _ x hx
    simp [mk_zoom_level] at hx
  | step n z p hprev ih =>
    intro hn x hx
    have hn' : n < U32M := by omega
    cases p with
    | none =>
      rcases z with ⟨u, st, ts⟩
      cases st <;> simp only [ZoomLevel.next_tiles] at hx <;>
        · have := ih hn' x hx
          omega
    | some res =>
      rcases z with ⟨u, st, ts⟩
      cases hs : res.is_success with
      | true =>
        cases st with
        | Init =>
          simp only [ZoomLevel.next_tiles, hs, if_true] at hx
          cases hx
          omega
        | FirstLine cx =>
          simp only [ZoomLevel.next_tiles, hs, if_true] at hx
          cases hx
          have hcx := ih hn' cx rfl
          have hlt : cx + 1 < U32M := by omega
          rw [Nat.mod_eq_of_lt hlt]
          omega
        | NextLines mx cy =>
          simp only [ZoomLevel.next_tiles, hs, if_true] at hx
          cases hx
      | false =>
        cases st with
        | Init =>
          simp only [ZoomLevel.next_tiles, hs, Bool.false_eq_true, if_false] at hx
          have := ih hn' x hx
          omega
        | FirstLine cx =>
          simp only [ZoomLevel.next_tiles, hs, Bool.false_eq_true, if_false] at hx
          cases hx
        | NextLines mx cy =>
          simp only [ZoomLevel.next_tiles, hs, Bool.false_eq_true, if_false] at hx
          have := ih hn' x hx
          omega

theorem flProbe_reachable : ∀ k : Nat, Reachable "t" (flProbe k) := by
  intro k
  induction k with
  | zero =>
    exact Reachable.step (mk_zoom_level "t") (some goodRes) Reachable.init
  | succ k ih =>
    have h := Reachable.step (flProbe k) (some goodRes) ih
    have e : ((flProbe k).next_tiles (some goodRes)).1 = flProbe (k + 1) := by
      have hmod : ((1 + k) % U32M + 1) % U32M = (1 + (k + 1)) % U32M := by
        rw [Nat.mod_add_mod]
        have e : 1 + k + 1 = 1 + (k + 1) := by omega
        rw [e]
      simp [flProbe, ZoomLevel.next_tiles, TileFetchResult.is_success, hmod, goodRes]
    rw [e] at h
    exact h

/-- C10 (amended): in every engine state reached by n < 2^32 next_tiles calls
-- that is, before u32 wraparound of the column counter, which no grid
indexable by u32 coordinates can trigger -- a FirstLine stage carries
1 <= current_x <= n, so the u32 subtraction current_x - 1 at the
end-of-first-line transition cannot underflow there; and whenever a call
leaves the engine in stage NextLines max_x y and returns a non-empty batch,
that batch is exactly the references of columns 0 through max_x of the single
row y (max_x + 1 tiles). -/
theorem c10_firstline_safety (t : String) (n : Nat) (z : ZoomLevel)
    (hr : ReachableN t n z) (hn : n < U32M) :
    (∀ x : Nat, z.stage = Stage.FirstLine x → 1 ≤ x ∧ x ≤ n)
    ∧ (∀ res : TileFetchResult, ∀ mx y : Nat,
        ((z.next_tiles (some res)).1).stage = Stage.NextLines mx y →
        (z.next_tiles (some res)).2 ≠ [] →
        (z.next_tiles (some res)).2
          = (List.range (mx + 1)).map fun c => ((z.next_tiles (some res)).1).tile_ref_at c y) := by
  constructor
  · exact reachableN_firstline_bound t n z hr hn
  · intro res mx y hst hne
    rcases z with ⟨u, st, ts⟩
    cases hs : res.is_success with
    | true =>
      cases st with
      | Init =>
        simp only [ZoomLevel.next_tiles, hs, if_true] at hst
        cases hst
      | FirstLine cx =>
        simp only [ZoomLevel.next_tiles, hs, if_true] at hst
        cases hst
      | NextLines mx2 cy =>
        simp only [next_tiles_nl_succ u ts mx2 cy res hs] at hst ⊢
        cases hst
        rfl
    | false =>
      cases st with
      | Init =>
        simp only [ZoomLevel.next_tiles, hs, Bool.false_eq_true, if_false] at hst hne
        exact absurd rfl hne
      | FirstLine cx =>
        simp only [next_tiles_fl_fail u ts cx res hs] at hst ⊢
        rw [Stage.NextLines.injEq] at hst
        obtain ⟨h1, h2⟩ := hst
        subst h1
        subst h2
        rfl
      | NextLines mx2 cy =>
        simp only [ZoomLevel.next_tiles, hs, Bool.false_eq_true, if_false] at hst hne
        exact absurd rfl hne

/-- C10 counterexample: with u32 wrapping the claimed invariant is not true of
every reachable state: after 2^32 - 1 consecutive successful first-line
probes (one per call, so unreachable for any real grid but reachable in the
transition system) the column counter wraps to 0, a reachable FirstLine state
with current_x = 0, from which the u32 subtraction current_x - 1 would
underflow. -/
theorem c10_counterexample :
    ¬ (∀ z : ZoomLevel, Reachable "t" z →
        ∀ x : Nat, z.stage = Stage.FirstLine x → 1 ≤ x) := by
  intro h
  have harith : (1 + (U32M - 1)) % U32M = 0 := by
    simp only [U32M]
  have hst : (flProbe (U32M - 1)).stage = Stage.FirstLine 0 := by
    simp only [flProbe]
    rw [harith]
  have h0 := h (flProbe (U32M - 1)) (flProbe_reachable (U32M - 1)) 0 hst
  omega

set_option maxRecDepth 4096 in
/-- Witness for c10_firstline_safety: the end-of-first-line transition from
the reachable state FirstLine 1 emits exactly the one-tile row 0..max_x = 0
of row 1. -/
theorem c10_firstline_safety_witness :
    ((flProbe 0).next_tiles (some badRes)).2
      = (List.range (0 + 1)).map fun c => (((flProbe 0).next_tiles (some badRes)).1).tile_ref_at c 1 :=
  (c10_firstline_safety "t" 1 (flProbe 0)
    (ReachableN.step 0 (mk_zoom_level "t") (some goodRes) ReachableN.init)
    (by decide)).2 badRes 0 1 (by decide) (by decide)
